import Mathlib

/-!
Verification development for the Scrapster signal-fusion, validation,
scoring, and deduplication engine.

The Python sources embedded here are src/app.py (email candidate
handling: is_generic_email, is_profile_specific_email,
infer_email_from_name_company, extract_email, deduplicate_results, and
the per-item email selection of the /scrape route) and
src/keyword_validator.py (KeywordRelevanceValidator:
calculate_relevance_score, validate_profile).

Embedding conventions:
* Python strings are Lean String; Python str.lower / str.strip /
  substring containment (the in operator) are modelled by String.toLower,
  String.trim and an executable substring test containsSub.
* Python floats are modelled as rationals.
* The external effects inside extract_email (the email regex findall,
  the network page scrape, and the company-pattern regex search) are
  supplied through an ExtractOracle record of plain functions; the rest
  of the control flow is translated statement by statement.
-/

/-- Does the character list n occur as a prefix of h (Python startswith on lists)? -/
def startsWithChars : List Char → List Char → Bool
  | [], _ => true
  | _ :: _, [] => false
  | a :: as, b :: bs => a = b && startsWithChars as bs

/-- Does the character list n occur contiguously inside h? -/
def hasSubChars (n : List Char) : List Char → Bool
  | [] => n.isEmpty
  | c :: cs => startsWithChars n (c :: cs) || hasSubChars n cs

/-- Python substring containment: needle in haystack. -/
def containsSub (needle haystack : String) : Bool :=
  hasSubChars needle.data haystack.data

/-- Python str.lower() for a character (ASCII model, matching the inputs
the scraper handles). -/
def charLower (c : Char) : Char :=
  if 65 ≤ c.toNat ∧ c.toNat ≤ 90 then Char.ofNat (c.toNat + 32) else c

/-- Python str.lower() (ASCII model). -/
def strLower (s : String) : String :=
  ⟨s.data.map charLower⟩

/-- Python str.strip(): drop leading and trailing whitespace. -/
def strTrim (s : String) : String :=
  ⟨((s.data.dropWhile Char.isWhitespace).reverse.dropWhile Char.isWhitespace).reverse⟩

/-- Split a character list at every separator character (pieces may be empty,
as with re.split and str.split with an argument). -/
def splitCharsAt (p : Char → Bool) : List Char → List (List Char)
  | [] => [[]]
  | c :: cs =>
    let rest := splitCharsAt p cs
    if p c then [] :: rest
    else
      match rest with
      | [] => [[c]]
      | piece :: more => (c :: piece) :: more

/-- Split a string at every separator character. -/
def strSplit (s : String) (p : Char → Bool) : List String :=
  (splitCharsAt p s.data).map (fun l => ⟨l⟩)

/-- Python str.split() with no argument: split on whitespace runs, dropping empties. -/
def splitWs (s : String) : List String :=
  (strSplit s Char.isWhitespace).filter (· ≠ "")

/-- Worker for strReplace; the fuel argument (the haystack length) makes the
recursion structural while each step consumes at least one character. -/
def replaceFuel (n r : List Char) : Nat → List Char → List Char
  | 0, h => h
  | _ + 1, [] => []
  | fuel + 1, c :: cs =>
    if !n.isEmpty && startsWithChars n (c :: cs) then
      r ++ replaceFuel n r fuel (cs.drop (n.length - 1))
    else c :: replaceFuel n r fuel cs

/-- Python str.replace(needle, replacement) for a non-empty needle. -/
def strReplace (s needle replacement : String) : String :=
  ⟨replaceFuel needle.data replacement.data s.data.length s.data⟩

/-- Python str.endswith(suffix). -/
def strEndsWith (s suffix : String) : Bool :=
  startsWithChars suffix.data.reverse s.data.reverse

/-- Drop the last n characters. -/
def strDropRight (s : String) (n : Nat) : String :=
  ⟨s.data.take (s.data.length - n)⟩

/-- Take the first n characters. -/
def strTake (s : String) (n : Nat) : String :=
  ⟨s.data.take n⟩

/-- Is the last character whitespace? -/
def endsWithWs (s : String) : Bool :=
  match s.data.getLast? with
  | some c => c.isWhitespace
  | none => false

/-- app.py GENERIC_EMAIL_PATTERNS: generic/contact email markers to exclude. -/
def GENERIC_EMAIL_PATTERNS : List String :=
  ["noreply", "no-reply", "donotreply", "support@", "info@", "contact@",
   "admin@", "webmaster@", "privacy@", "hello@", "mailer-", "postmaster@",
   "sales@", "marketing@", "help@", "customerservice@", "service@",
   "broofa", "example", "test@", "sample@"]

/-- app.py is_generic_email: any generic pattern occurs as a substring of the
lower-cased email. -/
def is_generic_email (email : String) : Bool :=
  GENERIC_EMAIL_PATTERNS.any (fun pattern => containsSub pattern (strLower email))

/-- The legal-entity suffix words of the regex in
infer_email_from_name_company / extract_company. -/
def LEGAL_SUFFIXES : List String :=
  ["inc", "llc", "ltd", "corp", "corporation", "company", "co"]

/-- Drop the maximal run of trailing whitespace. -/
def dropTrailingWs (s : String) : String :=
  ⟨(s.data.reverse.dropWhile Char.isWhitespace).reverse⟩

/-- Model of re.sub(r'\s+(inc|llc|ltd|corp|corporation|company|co)\.?$', '', s)
on an already lower-cased s: remove a trailing legal-entity word, its optional
final dot, and the whitespace run before it (for newline-free inputs). -/
def stripLegalSuffix (s : String) : String :=
  let base := if strEndsWith s "." then strDropRight s 1 else s
  match LEGAL_SUFFIXES.find?
      (fun w => strEndsWith base w && endsWithWs (strDropRight base w.length)) with
  | some w => dropTrailingWs (strDropRight base w.length)
  | none => s

/-- Model of re.sub(r'[^a-z0-9.-]', '', s): keep lower-case letters, digits,
dots and hyphens. -/
def keepDomainChars (s : String) : String :=
  ⟨s.data.filter (fun c => (decide (97 ≤ c.toNat) && decide (c.toNat ≤ 122))
    || c.isDigit || c = '.' || c = '-')⟩

/-- app.py is_profile_specific_email, with the company-pattern regex search
(extract_company) supplied as the function argument extractCompany. -/
def is_profile_specific_email (extractCompany : String → String)
    (email name profile_text : String) : Bool :=
  if name = "" || email = "" then false
  else
    let name_parts := ((splitWs name).filter (fun p => 2 < p.length)).map strLower
    let email_lower := strLower email
    if name_parts.any (fun part => containsSub part email_lower) then true
    else if profile_text ≠ "" then
      let company := extractCompany profile_text
      if company ≠ "" then
        let company_domain :=
          keepDomainChars
            (strReplace (strReplace (strReplace (strLower company) " " "") "&" "") "," "")
        containsSub company_domain email_lower
      else false
    else false

/-- app.py infer_email_from_name_company: guess an email from name and company
using common patterns; returns the first pattern. -/
def infer_email_from_name_company (name company : String) : String :=
  if name = "" || company = "" then ""
  else
    let company_clean := keepDomainChars (stripLegalSuffix (strLower company))
    let name_parts := splitWs (strLower name)
    match name_parts with
    | [] => ""
    | first_name :: _ =>
      let last_name := if name_parts.length > 1 then name_parts.getLast! else ""
      let patterns :=
        if last_name ≠ "" then
          [first_name ++ "." ++ last_name ++ "@" ++ company_clean,
           first_name ++ last_name ++ "@" ++ company_clean,
           first_name ++ "_" ++ last_name ++ "@" ++ company_clean,
           strTake first_name 1 ++ last_name ++ "@" ++ company_clean,
           first_name ++ strTake last_name 1 ++ "@" ++ company_clean]
        else
          [first_name ++ "@" ++ company_clean]
      match patterns with
      | [] => ""
      | p :: _ => p

/-- The external operations extract_email depends on: the shared email regex
findall, the profile-page scrape (scrape_profile_for_email), and the
company-pattern regex search (extract_company). -/
structure ExtractOracle where
  findEmails : String → List String
  scrapeEmail : String → String
  extractCompany : String → String

/-- The profile-site domains of extract_email, Strategy 3. -/
def PROFILE_DOMAINS : List String :=
  ["linkedin.com/in", "github.com", "twitter.com", "about.me"]

/-- One extraction strategy of extract_email: walk the found emails in order;
skip generic ones, return a profile-specific one immediately (Sum.inl), and
append the others to the accumulator with the strategy's confidence tier. -/
def scanEmails (gen : String → Bool) (specific : String → Bool) (tier : Nat) :
    List String → List (String × Nat) → Sum String (List (String × Nat))
  | [], acc => .inr acc
  | e :: es, acc =>
    if gen e then scanEmails gen specific tier es acc
    else if specific e then .inl e
    else scanEmails gen specific tier es (acc ++ [(e, tier)])

/-- Model of all_found_emails.sort(key=..., reverse=True) followed by taking
the first element: the first element of maximal confidence tier (Python's
sort is stable). -/
def selectBest (x : String × Nat) : List (String × Nat) → String × Nat
  | [] => x
  | y :: ys => selectBest (if x.2 < y.2 then y else x) ys

/-- The profile-specificity test extract_email applies to every candidate:
is_profile_specific_email against the profile's name and text. -/
def profileSpecificIn (o : ExtractOracle) (name text : String) : String → Bool :=
  fun e => is_profile_specific_email o.extractCompany e name text

/-- Strategy 2 of extract_email: scan the URL's email matches (tier 2),
guarded by the URL being non-empty. -/
def scanUrl (o : ExtractOracle) (url name text : String)
    (acc : List (String × Nat)) : Sum String (List (String × Nat)) :=
  if url ≠ "" then
    scanEmails is_generic_email (profileSpecificIn o name text) 2 (o.findEmails url) acc
  else .inr acc

/-- Strategy 3 of extract_email: scrape the profile page (tier 4) when the
profile URL belongs to one of the known profile sites. -/
def scanScraped (o : ExtractOracle) (profile_url name text : String)
    (acc : List (String × Nat)) : Sum String (List (String × Nat)) :=
  if profile_url ≠ "" ∧
      PROFILE_DOMAINS.any (fun d => containsSub d (strLower profile_url)) = true then
    if o.scrapeEmail profile_url ≠ "" ∧ is_generic_email (o.scrapeEmail profile_url) = false then
      if profileSpecificIn o name text (o.scrapeEmail profile_url) then
        Sum.inl (o.scrapeEmail profile_url)
      else Sum.inr (acc ++ [(o.scrapeEmail profile_url, 4)])
    else Sum.inr acc
  else Sum.inr acc

/-- Strategy 4 of extract_email: infer an email from the given name and
company (tier 1), only when the accumulated candidate list is still empty. -/
def addInferred4 (name company : String) (acc : List (String × Nat)) : List (String × Nat) :=
  if acc = [] ∧ name ≠ "" ∧ company ≠ "" then
    if infer_email_from_name_company name company ≠ "" ∧
        is_generic_email (infer_email_from_name_company name company) = false then
      acc ++ [(infer_email_from_name_company name company, 1)]
    else acc
  else acc

/-- Strategy 5 of extract_email: extract a company from the profile text and
infer from it (tier 1), only when the candidate list is still empty. -/
def addInferred5 (o : ExtractOracle) (name text : String)
    (acc : List (String × Nat)) : List (String × Nat) :=
  if acc = [] ∧ name ≠ "" ∧ text ≠ "" then
    if o.extractCompany text ≠ "" then
      if infer_email_from_name_company name (o.extractCompany text) ≠ "" ∧
          is_generic_email (infer_email_from_name_company name (o.extractCompany text)) = false then
        acc ++ [(infer_email_from_name_company name (o.extractCompany text), 1)]
      else acc
    else acc
  else acc

/-- Strategies 4 and 5 of extract_email in sequence. -/
def addInferred (o : ExtractOracle) (name company text : String)
    (acc : List (String × Nat)) : List (String × Nat) :=
  addInferred5 o name text (addInferred4 name company acc)

/-- The final step of extract_email: sort the accumulated candidates by
confidence descending (stably) and return the first, or return "" when none
survived. -/
def finishExtract : List (String × Nat) → String
  | [] => ""
  | x :: xs => (selectBest x xs).1

/-- app.py extract_email: pick one email for a profile from the text matches
(tier 3), the URL matches (tier 2), the scraped profile page (tier 4), and
name/company inference (tier 1, tried only when nothing else was found).
A non-generic profile-specific candidate is returned as soon as a strategy
encounters one (Sum.inl). -/
def extract_email (o : ExtractOracle) (text url name company profile_url : String) : String :=
  match scanEmails is_generic_email (profileSpecificIn o name text) 3 (o.findEmails text) [] with
  | .inl e => e
  | .inr acc1 =>
    match scanUrl o url name text acc1 with
    | .inl e => e
    | .inr acc2 =>
      match scanScraped o profile_url name text acc2 with
      | .inl e => e
      | .inr acc3 => finishExtract (addInferred o name company text acc3)

/-- All found (non-inferred) candidate emails of extract_email, in the order
the three extraction strategies encounter them: text matches (tier 3), URL
matches (tier 2), then the scraped-profile-page email (tier 4). -/
def candidateEmails (o : ExtractOracle) (text url profile_url : String) : List String :=
  o.findEmails text
    ++ (if url ≠ "" then o.findEmails url else [])
    ++ (if profile_url ≠ "" ∧
          PROFILE_DOMAINS.any (fun d => containsSub d (strLower profile_url)) = true then
          (if o.scrapeEmail profile_url ≠ "" then [o.scrapeEmail profile_url] else [])
        else [])

/-- Strategy 2 of the /scrape route's per-item email step: the first
non-generic match of the contact patterns (the list of group-1 matches is
supplied in pattern order), or "" when none. -/
def contactFallback (contactMatches : List String) : String :=
  match contactMatches.find? (fun e => !is_generic_email e) with
  | some e => e
  | none => ""

/-- Strategy 3 of the /scrape route's per-item email step: among the
advanced-scraper emails, the first non-generic profile-specific one, else the
first non-generic one, else "". -/
def advancedFallback (o : ExtractOracle) (advEmails : List String)
    (name snippet : String) : String :=
  match advEmails.find?
      (fun e => !is_generic_email e &&
        is_profile_specific_email o.extractCompany e name snippet) with
  | some e => e
  | none =>
    match advEmails.find? (fun e => !is_generic_email e) with
    | some e => e
    | none => ""

/-- The contact-pattern fallback runs only when no email was found yet. -/
def selectContact (email : String) (contactMatches : List String) : String :=
  if email = "" then contactFallback contactMatches else email

/-- The advanced-scraper fallback runs only when no email was found yet, the
feature is enabled, and the scrape succeeded with a non-empty email list. -/
def selectAdv (email : String) (o : ExtractOracle) (advEmails : List String)
    (advSuccess advEnabled : Bool) (name snippet : String) : String :=
  if email = "" ∧ advEnabled = true ∧ advSuccess = true ∧ advEmails ≠ [] then
    advancedFallback o advEmails name snippet
  else email

/-- Per-item email selection of the /scrape route (app.py lines 610-650):
extract_email on title+snippet first, then the contact-pattern fallback,
then the advanced-scraper fallback. -/
def select_item_email (o : ExtractOracle) (contactMatches advEmails : List String)
    (advSuccess advEnabled : Bool) (title snippet link name company : String) : String :=
  selectAdv
    (selectContact (extract_email o (title ++ " " ++ snippet) link name company link)
      contactMatches)
    o advEmails advSuccess advEnabled name snippet

/-- The two fields of a result row that deduplicate_results reads. -/
structure ScrapeResult where
  profile_url : String
  email : String
deriving DecidableEq, Repr

/-- The email normalization of deduplicate_results:
result.get('email', '').lower().strip() if result.get('email') else ''. -/
def normEmail (e : String) : String :=
  if e ≠ "" then strTrim (strLower e) else ""

/-- Lookup in the seen_emails mapping (email -> first profile URL). -/
def seLookup : List (String × String) → String → Option String
  | [], _ => none
  | (k, v) :: rest, e => if k = e then some v else seLookup rest e

/-- Insert-or-overwrite in the seen_emails mapping. -/
def seUpdate : List (String × String) → String → String → List (String × String)
  | [], k, v => [(k, v)]
  | (k', v') :: rest, k, v =>
    if k' = k then (k, v) :: rest else (k', v') :: seUpdate rest k v

/-- The email-conflict test of deduplicate_results: the email was already
claimed, and by a different profile URL. -/
def emailConflict (se : List (String × String)) (email url : String) : Bool :=
  match seLookup se email with
  | some existing_url => existing_url != url
  | none => false

/-- The loop body of deduplicate_results over the remaining rows, carrying
seen_urls and seen_emails. -/
def dedupGo : List ScrapeResult → List String → List (String × String) → List ScrapeResult
  | [], _, _ => []
  | r :: rs, su, se =>
    if r.profile_url ≠ "" ∧ r.profile_url ∈ su then dedupGo rs su se
    else if normEmail r.email ≠ "" ∧ emailConflict se (normEmail r.email) r.profile_url = true then
      dedupGo rs su se
    else
      r :: dedupGo rs
        (if r.profile_url ≠ "" then r.profile_url :: su else su)
        (if normEmail r.email ≠ "" then seUpdate se (normEmail r.email) r.profile_url else se)

/-- app.py deduplicate_results: drop rows whose URL was already seen or whose
normalized email was already claimed by a different URL. -/
def deduplicate_results (results : List ScrapeResult) : List ScrapeResult :=
  dedupGo results [] []

/-- keyword_validator.py IRRELEVANT_TERMS. -/
def IRRELEVANT_TERMS : List String :=
  ["shop", "store", "buy", "sell", "purchase", "price", "deal", "discount",
   "product", "products", "equipment", "device", "scanner", "reader",
   "handbag", "wallet", "blocking", "protection", "card holder",
   "amazon", "ebay", "aliexpress", "wholesale", "retail",
   "shipping", "delivery", "order", "cart", "checkout"]

/-- keyword_validator.py PROFESSIONAL_TERMS. -/
def PROFESSIONAL_TERMS : List String :=
  ["engineer", "developer", "architect", "specialist", "consultant",
   "manager", "director", "lead", "senior", "principal", "staff",
   "researcher", "analyst", "scientist", "expert", "professional",
   "experience", "years", "skills", "certification", "degree",
   "university", "college", "education", "project", "team"]

/-- The product_indicators list of calculate_relevance_score. -/
def PRODUCT_INDICATORS : List String :=
  ["shop", "buy", "sell", "price", "add to cart", "checkout"]

/-- The company_page_indicators list of calculate_relevance_score. -/
def COMPANY_PAGE_INDICATORS : List String :=
  ["about us", "our company", "our team", "contact us", "careers"]

/-- The stopwords excluded by _extract_keyword_terms. -/
def STOP_WORDS : List String := ["the", "and", "or", "for", "with", "from"]

/-- re.split(r'[\s,.-]+', s): split on whitespace, comma, dot and hyphen
(empty pieces are filtered away downstream by the length check). -/
def splitSeparators (s : String) : List String :=
  strSplit s (fun c => c.isWhitespace || c = ',' || c = '.' || c = '-')

/-- Rational addition in a form the kernel evaluates (proved equal to + below). -/
def qAdd (a b : ℚ) : ℚ :=
  mkRat (a.num * b.den + b.num * a.den) (a.den * b.den)

/-- Rational multiplication in a form the kernel evaluates. -/
def qMul (a b : ℚ) : ℚ :=
  mkRat (a.num * b.num) (a.den * b.den)

/-- Division of two naturals as a rational, in a form the kernel evaluates
(Python m / n; for n = 0 both sides below are 0, and the code never divides
by zero). -/
def qDivNat (m n : Nat) : ℚ :=
  mkRat m n

/-- KeywordRelevanceValidator state: the normalized keywords and the
extracted keyword terms. -/
structure KeywordRelevanceValidator where
  keywords : List String
  keyword_terms : List String
deriving Repr

/-- KeywordRelevanceValidator.__init__ together with _extract_keyword_terms.
list(set(terms)) is modelled by List.eraseDups; every downstream use of
keyword_terms (membership tests, counts, length) is order-insensitive. -/
def mkValidator (keywords : List String) : KeywordRelevanceValidator :=
  let ks := (keywords.filter (fun k => strTrim k ≠ "")).map (fun k => strTrim (strLower k))
  let terms := ks.flatMap (fun keyword =>
    (splitSeparators (strLower keyword)).filter
      (fun p => 2 < p.length ∧ p ∉ STOP_WORDS))
  ⟨ks, terms.eraseDups⟩

/-- The combined text of calculate_relevance_score:
f-string of title, job_title, company, profile_text, lower-cased. -/
def combinedText (title job_title company profile_text : String) : String :=
  strLower (title ++ " " ++ job_title ++ " " ++ company ++ " " ++ profile_text)

/-- Number of IRRELEVANT_TERMS occurring in a text. -/
def irrelevantCount (s : String) : Nat :=
  (IRRELEVANT_TERMS.filter (fun term => containsSub term s)).length

/-- Does any product indicator occur in the text? -/
def isProductListing (s : String) : Bool :=
  PRODUCT_INDICATORS.any (fun indicator => containsSub indicator s)

/-- Number of company-page indicators occurring in a text. -/
def companyPageCount (s : String) : Nat :=
  (COMPANY_PAGE_INDICATORS.filter (fun ind => containsSub ind s)).length

/-- Number of keyword terms of the validator occurring in a text. -/
def keywordMatchCount (v : KeywordRelevanceValidator) (s : String) : Nat :=
  (v.keyword_terms.filter (fun term => containsSub term s)).length

/-- Number of PROFESSIONAL_TERMS occurring in a text. -/
def professionalCount (s : String) : Nat :=
  (PROFESSIONAL_TERMS.filter (fun term => containsSub term s)).length

/-- Does any keyword term occur in the (lower-cased) given field, and is the
field non-empty (Python: if job_title: any(term in job_title.lower() ...))? -/
def fieldKeywordMatch (v : KeywordRelevanceValidator) (field : String) : Bool :=
  decide (field ≠ "") && v.keyword_terms.any (fun term => containsSub term (strLower field))

/-- The weighted base score of calculate_relevance_score before the final
clamp: keyword coverage (cap 1, weight 4/10), professional presence
(cap 1 over 5 terms, weight 3/10), binary job-title match (2/10), binary
company match (1/10), all multiplied by 3/10 when no keyword matched. -/
def relevanceSum (keyword_matches professional_count term_count : Nat)
    (job_match company_match : Bool) : ℚ :=
  qAdd (qAdd (qAdd
    (if 0 < keyword_matches then
       qMul (min (qDivNat keyword_matches term_count) 1) (mkRat 4 10)
     else 0)
    (if 0 < professional_count then
       qMul (min (qDivNat professional_count 5) 1) (mkRat 3 10) else 0))
    (if job_match then mkRat 2 10 else 0))
    (if company_match then mkRat 1 10 else 0)

/-- The zero-keyword-match penalty applied to the weighted sum. -/
def relevanceBase (keyword_matches professional_count term_count : Nat)
    (job_match company_match : Bool) : ℚ :=
  if keyword_matches = 0 then
    qMul (relevanceSum keyword_matches professional_count term_count job_match company_match)
      (mkRat 3 10)
  else relevanceSum keyword_matches professional_count term_count job_match company_match

/-- The reason string of calculate_relevance_score. -/
def relevanceReason (keyword_matches professional_count : Nat) (job_match : Bool) : String :=
  String.intercalate "; "
    (if ((if 0 < keyword_matches then
            ["Found " ++ toString keyword_matches ++ " keyword match(es)"] else []) ++
         (if 0 < professional_count then
            ["Found " ++ toString professional_count ++ " professional indicator(s)"] else []) ++
         (if job_match then ["Job title matches keywords"] else [])) = [] then
       ["No clear keyword relevance"]
     else
       ((if 0 < keyword_matches then
           ["Found " ++ toString keyword_matches ++ " keyword match(es)"] else []) ++
        (if 0 < professional_count then
           ["Found " ++ toString professional_count ++ " professional indicator(s)"] else []) ++
        (if job_match then ["Job title matches keywords"] else [])))

/-- keyword_validator.py calculate_relevance_score: returns (score, reason);
floats are modelled as rationals. -/
def calculate_relevance_score (v : KeywordRelevanceValidator)
    (profile_text : String) (title : String := "") (job_title : String := "")
    (company : String := "") : ℚ × String :=
  if profile_text = "" then (0, "No profile text available")
  else if 2 ≤ irrelevantCount (combinedText title job_title company profile_text) then
    (0, "Profile appears to be selling products (found " ++
        toString (irrelevantCount (combinedText title job_title company profile_text)) ++
        " irrelevant terms)")
  else if isProductListing (combinedText title job_title company profile_text) then
    (0, "Profile appears to be a product listing, not a professional")
  else if 2 ≤ companyPageCount (combinedText title job_title company profile_text) then
    (0, "Profile appears to be a company page, not an individual")
  else
    (min (relevanceBase
        (keywordMatchCount v (combinedText title job_title company profile_text))
        (professionalCount (combinedText title job_title company profile_text))
        v.keyword_terms.length
        (fieldKeywordMatch v job_title)
        (fieldKeywordMatch v company)) 1,
     relevanceReason
        (keywordMatchCount v (combinedText title job_title company profile_text))
        (professionalCount (combinedText title job_title company profile_text))
        (fieldKeywordMatch v job_title))

/-- The record returned by validate_profile: the verdict, score, reason,
confidence, and the five diagnostic checks. -/
structure ValidateResult where
  is_valid : Bool
  score : ℚ
  reason : String
  confidence : ℚ
  has_name : Bool
  has_keyword_match : Bool
  is_professional : Bool
  not_product : Bool
  not_company_page : Bool
deriving Repr

/-- keyword_validator.py validate_profile. -/
def validate_profile (v : KeywordRelevanceValidator) (name profile_text : String)
    (title : String := "") (job_title : String := "") (company : String := "")
    (url : String := "") : ValidateResult :=
  let sr := calculate_relevance_score v profile_text title job_title company
  let score := sr.1
  let has_name := name ≠ "" && name ≠ "Unknown" && decide (2 < name.length)
  let has_keyword_match :=
    v.keyword_terms.any (fun term => containsSub term (strLower profile_text))
  let is_professional :=
    PROFESSIONAL_TERMS.any (fun term => containsSub term (strLower profile_text))
  let not_product :=
    !(IRRELEVANT_TERMS.take 5).any (fun term => containsSub term (strLower profile_text))
  let not_company_page :=
    !(["about us", "our company", "contact us"].any
        (fun ind => containsSub ind (strLower profile_text)))
  let checks_passed : Nat :=
    (if has_name then 1 else 0) + (if has_keyword_match then 1 else 0) +
    (if is_professional then 1 else 0) + (if not_product then 1 else 0) +
    (if not_company_page then 1 else 0)
  let confidence : ℚ := qDivNat checks_passed 5
  let is_valid :=
    decide (mkRat 3 10 ≤ score) && has_name && has_keyword_match && not_product
  { is_valid := is_valid, score := score, reason := sr.2, confidence := confidence,
    has_name := has_name, has_keyword_match := has_keyword_match,
    is_professional := is_professional, not_product := not_product,
    not_company_page := not_company_page }

/-- A local-part character of the shared email grammar: [A-Za-z0-9._%+-]. -/
def isLocalChar (c : Char) : Bool :=
  c.isAlpha || c.isDigit || c = '.' || c = '_' || c = '%' || c = '+' || c = '-'

/-- A domain character of the shared email grammar: [A-Za-z0-9.-]. -/
def isDomainChar (c : Char) : Bool :=
  c.isAlpha || c.isDigit || c = '.' || c = '-'

/-- Modelled from the spec: the shared email-token grammar, as a whole-string
test — a non-empty local part of alphanumerics and ._%+-, an @, a non-empty
domain of alphanumerics/.-, a dot, and a final label of at least 2 letters. -/
def emailValid (s : String) : Bool :=
  match strSplit s (· = '@') with
  | [localPart, domainPart] =>
    let revDomain := domainPart.data.reverse
    let label := revDomain.takeWhile Char.isAlpha
    let afterLabel := revDomain.drop label.length
    localPart ≠ "" && localPart.data.all isLocalChar &&
      decide (2 ≤ label.length) &&
      (match afterLabel with
       | '.' :: rest => !rest.isEmpty && rest.all isDomainChar
       | _ => false)
  | _ => false

/-- Concrete oracle: one text email match, a fixed scraped email,
no company pattern in any text. -/
def oracleTextScrape : ExtractOracle :=
  ⟨fun s => if s = "T" then ["john@x.com"] else [], fun _ => "doe@y.com", fun _ => ""⟩

/-- Concrete oracle: no email matches, no scraped email, no company pattern. -/
def oracleEmpty : ExtractOracle :=
  ⟨fun _ => [], fun _ => "", fun _ => ""⟩

/-! ## Helper lemmas about the extraction pipeline -/

theorem scanEmails_inl_iff (gen sp : String → Bool) (t : Nat) :
    ∀ (es : List String) (acc : List (String × Nat)) (e : String),
      scanEmails gen sp t es acc = Sum.inl e ↔
        es.find? (fun x => !gen x && sp x) = some e := by
  intro es
  induction es with
  | nil => intro acc e; simp [scanEmails]
  | cons a as ih =>
    intro acc e
    by_cases hg : gen a = true
    · simp [scanEmails, hg, List.find?_cons, ih]
    · rw [Bool.not_eq_true] at hg
      by_cases hs : sp a = true
      · simp [scanEmails, hg, hs, List.find?_cons]
      · rw [Bool.not_eq_true] at hs
        simp [scanEmails, hg, hs, List.find?_cons, ih]

theorem scanEmails_inr (gen sp : String → Bool) (t : Nat) :
    ∀ (es : List String) (acc acc' : List (String × Nat)),
      scanEmails gen sp t es acc = Sum.inr acc' →
        ∃ l, acc' = acc ++ l ∧ ∀ x ∈ l, x.1 ∈ es ∧ gen x.1 = false ∧ x.2 = t := by
  intro es
  induction es with
  | nil =>
    intro acc acc' h
    simp [scanEmails] at h
    exact ⟨[], by simp [h.symm], by simp⟩
  | cons a as ih =>
    intro acc acc' h
    by_cases hg : gen a = true
    · simp [scanEmails, hg] at h
      obtain ⟨l, hl, hmem⟩ := ih acc acc' h
      exact ⟨l, hl, fun x hx => ⟨List.mem_cons_of_mem a (hmem x hx).1,
        (hmem x hx).2.1, (hmem x hx).2.2⟩⟩
    · rw [Bool.not_eq_true] at hg
      by_cases hs : sp a = true
      · simp [scanEmails, hg, hs] at h
      · rw [Bool.not_eq_true] at hs
        simp [scanEmails, hg, hs] at h
        obtain ⟨l, hl, hmem⟩ := ih (acc ++ [(a, t)]) acc' h
        refine ⟨(a, t) :: l, by simpa using hl, ?_⟩
        intro x hx
        rcases List.mem_cons.1 hx with hx | hx
        · subst hx; exact ⟨List.mem_cons_self a as, hg, rfl⟩
        · exact ⟨List.mem_cons_of_mem a (hmem x hx).1, (hmem x hx).2.1, (hmem x hx).2.2⟩

theorem scanEmails_progress (gen sp : String → Bool) (t : Nat) :
    ∀ (es : List String) (acc : List (String × Nat)),
      (∃ e ∈ es, gen e = false) →
        (∃ e, scanEmails gen sp t es acc = Sum.inl e) ∨
        (∃ acc', scanEmails gen sp t es acc = Sum.inr acc' ∧ acc'.length > acc.length) := by
  intro es
  induction es with
  | nil => intro acc h; simp at h
  | cons a as ih =>
    intro acc h
    by_cases hg : gen a = true
    · obtain ⟨e, he, hge⟩ := h
      rcases List.mem_cons.1 he with rfl | he'
      · rw [hg] at hge; exact absurd hge (by simp)
      · have := ih acc ⟨e, he', hge⟩
        simpa [scanEmails, hg] using this
    · rw [Bool.not_eq_true] at hg
      by_cases hs : sp a = true
      · exact Or.inl ⟨a, by simp [scanEmails, hg, hs]⟩
      · rw [Bool.not_eq_true] at hs
        rcases hr : scanEmails gen sp t as (acc ++ [(a, t)]) with e | acc'
        · exact Or.inl ⟨e, by simp [scanEmails, hg, hs, hr]⟩
        · refine Or.inr ⟨acc', by simp [scanEmails, hg, hs, hr], ?_⟩
          obtain ⟨l, hl, _⟩ := scanEmails_inr gen sp t as (acc ++ [(a, t)]) acc' hr
          simp [hl]

theorem selectBest_mem : ∀ (xs : List (String × Nat)) (x : String × Nat),
    selectBest x xs ∈ x :: xs := by
  intro xs
  induction xs with
  | nil => intro x; simp [selectBest]
  | cons y ys ih =>
    intro x
    rw [selectBest]
    by_cases h : x.2 < y.2
    · have := ih (if x.2 < y.2 then y else x)
      simp [h] at this ⊢
      rcases this with h' | h' <;> simp [h']
    · have := ih (if x.2 < y.2 then y else x)
      simp [h] at this ⊢
      rcases this with h' | h' <;> simp [h']

theorem finishExtract_cases (acc : List (String × Nat)) :
    finishExtract acc = "" ∨ ∃ x ∈ acc, finishExtract acc = x.1 := by
  cases acc with
  | nil => exact Or.inl rfl
  | cons x xs =>
    refine Or.inr ⟨selectBest x xs, selectBest_mem xs x, rfl⟩

theorem addInferred4_of_ne_nil (name company : String)
    (acc : List (String × Nat)) (h : acc ≠ []) :
    addInferred4 name company acc = acc := by
  simp [addInferred4, h]

theorem addInferred5_of_ne_nil (o : ExtractOracle) (name text : String)
    (acc : List (String × Nat)) (h : acc ≠ []) :
    addInferred5 o name text acc = acc := by
  simp [addInferred5, h]

theorem addInferred_of_ne_nil (o : ExtractOracle) (name company text : String)
    (acc : List (String × Nat)) (h : acc ≠ []) :
    addInferred o name company text acc = acc := by
  unfold addInferred
  rw [addInferred4_of_ne_nil name company acc h, addInferred5_of_ne_nil o name text acc h]

theorem addInferred4_mem (name company : String) (acc : List (String × Nat)) :
    ∀ x ∈ addInferred4 name company acc,
      x ∈ acc ∨
      (is_generic_email x.1 = false ∧ x.1 = infer_email_from_name_company name company) := by
  intro x hx
  unfold addInferred4 at hx
  split at hx
  · split at hx
    · rename_i hcond
      rcases List.mem_append.1 hx with hx | hx
      · exact Or.inl hx
      · simp at hx
        exact Or.inr ⟨by rw [hx]; exact hcond.2, by rw [hx]⟩
    · exact Or.inl hx
  · exact Or.inl hx

theorem addInferred5_mem (o : ExtractOracle) (name text : String)
    (acc : List (String × Nat)) :
    ∀ x ∈ addInferred5 o name text acc,
      x ∈ acc ∨
      (is_generic_email x.1 = false ∧
        x.1 = infer_email_from_name_company name (o.extractCompany text)) := by
  intro x hx
  unfold addInferred5 at hx
  split at hx
  · split at hx
    · split at hx
      · rename_i hcond
        rcases List.mem_append.1 hx with hx | hx
        · exact Or.inl hx
        · simp at hx
          exact Or.inr ⟨by rw [hx]; exact hcond.2, by rw [hx]⟩
      · exact Or.inl hx
    · exact Or.inl hx
  · exact Or.inl hx

theorem addInferred_mem (o : ExtractOracle) (name company text : String)
    (acc : List (String × Nat)) :
    ∀ x ∈ addInferred o name company text acc,
      x ∈ acc ∨
      (is_generic_email x.1 = false ∧
        (x.1 = infer_email_from_name_company name company ∨
         x.1 = infer_email_from_name_company name (o.extractCompany text))) := by
  intro x hx
  rcases addInferred5_mem o name text (addInferred4 name company acc) x hx with hx' | hx'
  · rcases addInferred4_mem name company acc x hx' with hx'' | hx''
    · exact Or.inl hx''
    · exact Or.inr ⟨hx''.1, Or.inl hx''.2⟩
  · exact Or.inr ⟨hx'.1, Or.inr hx'.2⟩

theorem scanUrl_pos (o : ExtractOracle) (url name text : String)
    (acc : List (String × Nat)) (h : url ≠ "") :
    scanUrl o url name text acc =
      scanEmails is_generic_email (profileSpecificIn o name text) 2 (o.findEmails url) acc := by
  simp [scanUrl, h]

theorem scanUrl_inl (o : ExtractOracle) (url name text : String)
    (acc : List (String × Nat)) (e : String)
    (h : scanUrl o url name text acc = Sum.inl e) :
    url ≠ "" ∧
      (o.findEmails url).find?
        (fun x => !is_generic_email x && profileSpecificIn o name text x) = some e := by
  by_cases hu : url = ""
  · simp [scanUrl, hu] at h
  · rw [scanUrl_pos o url name text acc hu] at h
    exact ⟨hu, (scanEmails_inl_iff _ _ _ _ _ _).1 h⟩

theorem scanUrl_inr (o : ExtractOracle) (url name text : String)
    (acc acc' : List (String × Nat))
    (h : scanUrl o url name text acc = Sum.inr acc') :
    ∃ l, acc' = acc ++ l ∧
      ∀ x ∈ l, x.1 ∈ o.findEmails url ∧ is_generic_email x.1 = false ∧ x.2 = 2 := by
  by_cases hu : url = ""
  · simp [scanUrl, hu] at h
    exact ⟨[], by simp [h.symm], by simp⟩
  · rw [scanUrl_pos o url name text acc hu] at h
    exact scanEmails_inr _ _ _ _ _ _ h

theorem scanScraped_inl (o : ExtractOracle) (profile_url name text : String)
    (acc : List (String × Nat)) (e : String)
    (h : scanScraped o profile_url name text acc = Sum.inl e) :
    e = o.scrapeEmail profile_url ∧ e ≠ "" ∧ is_generic_email e = false ∧
      profileSpecificIn o name text e = true := by
  unfold scanScraped at h
  split at h
  · split at h
    · split at h
      · rename_i hcond hspec
        cases h
        exact ⟨rfl, hcond.1, hcond.2, hspec⟩
      · cases h
    · cases h
  · cases h

theorem scanScraped_inr (o : ExtractOracle) (profile_url name text : String)
    (acc acc' : List (String × Nat))
    (h : scanScraped o profile_url name text acc = Sum.inr acc') :
    ∃ l, acc' = acc ++ l ∧
      ∀ x ∈ l, x.1 = o.scrapeEmail profile_url ∧ is_generic_email x.1 = false ∧ x.2 = 4 := by
  unfold scanScraped at h
  split at h
  · split at h
    · split at h
      · cases h
      · rename_i hcond _
        cases h
        refine ⟨[(o.scrapeEmail profile_url, 4)], rfl, ?_⟩
        intro x hx
        simp at hx
        exact ⟨by rw [hx], by rw [hx]; exact hcond.2, by rw [hx]⟩
    · cases h
      exact ⟨[], by simp, by simp⟩
  · cases h
    exact ⟨[], by simp, by simp⟩

theorem scanScraped_progress (o : ExtractOracle) (profile_url name text : String)
    (acc : List (String × Nat))
    (hdom : profile_url ≠ "" ∧
      PROFILE_DOMAINS.any (fun d => containsSub d (strLower profile_url)) = true)
    (hne : o.scrapeEmail profile_url ≠ "")
    (hgen : is_generic_email (o.scrapeEmail profile_url) = false) :
    scanScraped o profile_url name text acc = Sum.inl (o.scrapeEmail profile_url) ∨
      scanScraped o profile_url name text acc = Sum.inr (acc ++ [(o.scrapeEmail profile_url, 4)]) := by
  unfold scanScraped
  rw [if_pos hdom, if_pos ⟨hne, hgen⟩]
  by_cases hspec : profileSpecificIn o name text (o.scrapeEmail profile_url) = true
  · rw [if_pos hspec]; exact Or.inl rfl
  · rw [if_neg hspec]; exact Or.inr rfl

/-- After the three scanning strategies all fall through (Sum.inr), every
accumulated candidate comes from the text, the URL, or the scraped page,
and is not generic. -/
theorem acc3_sources (o : ExtractOracle) (text url name profile_url : String)
    (acc1 acc2 acc3 : List (String × Nat))
    (h1 : scanEmails is_generic_email (profileSpecificIn o name text) 3
            (o.findEmails text) [] = Sum.inr acc1)
    (h2 : scanUrl o url name text acc1 = Sum.inr acc2)
    (h3 : scanScraped o profile_url name text acc2 = Sum.inr acc3) :
    ∀ x ∈ acc3,
      (x.1 ∈ o.findEmails text ∨ x.1 ∈ o.findEmails url ∨ x.1 = o.scrapeEmail profile_url) ∧
        is_generic_email x.1 = false := by
  obtain ⟨l1, hl1, hm1⟩ := scanEmails_inr _ _ _ _ _ _ h1
  obtain ⟨l2, hl2, hm2⟩ := scanUrl_inr _ _ _ _ _ _ h2
  obtain ⟨l3, hl3, hm3⟩ := scanScraped_inr _ _ _ _ _ _ h3
  intro x hx
  rw [hl3, hl2, hl1] at hx
  simp only [List.nil_append, List.mem_append] at hx
  rcases hx with (hx | hx) | hx
  · exact ⟨Or.inl (hm1 x hx).1, (hm1 x hx).2.1⟩
  · exact ⟨Or.inr (Or.inl (hm2 x hx).1), (hm2 x hx).2.1⟩
  · exact ⟨Or.inr (Or.inr (hm3 x hx).1), (hm3 x hx).2.1⟩

theorem extract_email_eq1 (o : ExtractOracle) (text url name company purl e : String)
    (h1 : scanEmails is_generic_email (profileSpecificIn o name text) 3
      (o.findEmails text) [] = Sum.inl e) :
    extract_email o text url name company purl = e := by
  unfold extract_email
  simp only [h1]

theorem extract_email_eq2 (o : ExtractOracle) (text url name company purl e : String)
    (acc1 : List (String × Nat))
    (h1 : scanEmails is_generic_email (profileSpecificIn o name text) 3
      (o.findEmails text) [] = Sum.inr acc1)
    (h2 : scanUrl o url name text acc1 = Sum.inl e) :
    extract_email o text url name company purl = e := by
  unfold extract_email
  simp only [h1, h2]

theorem extract_email_eq3 (o : ExtractOracle) (text url name company purl e : String)
    (acc1 acc2 : List (String × Nat))
    (h1 : scanEmails is_generic_email (profileSpecificIn o name text) 3
      (o.findEmails text) [] = Sum.inr acc1)
    (h2 : scanUrl o url name text acc1 = Sum.inr acc2)
    (h3 : scanScraped o purl name text acc2 = Sum.inl e) :
    extract_email o text url name company purl = e := by
  unfold extract_email
  simp only [h1, h2, h3]

theorem extract_email_eq4 (o : ExtractOracle) (text url name company purl : String)
    (acc1 acc2 acc3 : List (String × Nat))
    (h1 : scanEmails is_generic_email (profileSpecificIn o name text) 3
      (o.findEmails text) [] = Sum.inr acc1)
    (h2 : scanUrl o url name text acc1 = Sum.inr acc2)
    (h3 : scanScraped o purl name text acc2 = Sum.inr acc3) :
    extract_email o text url name company purl =
      finishExtract (addInferred o name company text acc3) := by
  unfold extract_email
  simp only [h1, h2, h3]

/-- Every return path of extract_email is guarded by is_generic_email. -/
theorem extract_email_not_generic (o : ExtractOracle) (text url name company purl : String) :
    is_generic_email (extract_email o text url name company purl) = false := by
  cases h1 : scanEmails is_generic_email (profileSpecificIn o name text) 3
      (o.findEmails text) [] with
  | inl e =>
    rw [extract_email_eq1 o text url name company purl e h1]
    have hp := List.find?_some ((scanEmails_inl_iff _ _ _ _ _ _).1 h1)
    simp only [Bool.and_eq_true, Bool.not_eq_true'] at hp
    exact hp.1
  | inr acc1 =>
    cases h2 : scanUrl o url name text acc1 with
    | inl e =>
      rw [extract_email_eq2 o text url name company purl e acc1 h1 h2]
      have hp := List.find?_some (scanUrl_inl _ _ _ _ _ _ h2).2
      simp only [Bool.and_eq_true, Bool.not_eq_true'] at hp
      exact hp.1
    | inr acc2 =>
      cases h3 : scanScraped o purl name text acc2 with
      | inl e =>
        rw [extract_email_eq3 o text url name company purl e acc1 acc2 h1 h2 h3]
        exact (scanScraped_inl _ _ _ _ _ _ h3).2.2.1
      | inr acc3 =>
        rw [extract_email_eq4 o text url name company purl acc1 acc2 acc3 h1 h2 h3]
        rcases finishExtract_cases (addInferred o name company text acc3) with hfin | ⟨x, hx, hfin⟩
        · rw [hfin]; decide
        · rw [hfin]
          rcases addInferred_mem o name company text acc3 x hx with hmem | hmem
          · exact (acc3_sources o text url name purl acc1 acc2 acc3 h1 h2 h3 x hmem).2
          · exact hmem.1

theorem contactFallback_not_generic (contactMatches : List String) :
    is_generic_email (contactFallback contactMatches) = false := by
  unfold contactFallback
  cases hf : contactMatches.find? (fun e => !is_generic_email e) with
  | none => decide
  | some e =>
    have hp := List.find?_some hf
    simpa using hp

theorem advancedFallback_not_generic (o : ExtractOracle) (advEmails : List String)
    (name snippet : String) :
    is_generic_email (advancedFallback o advEmails name snippet) = false := by
  unfold advancedFallback
  cases hf : advEmails.find?
      (fun e => !is_generic_email e &&
        is_profile_specific_email o.extractCompany e name snippet) with
  | some e =>
    have hp := List.find?_some hf
    simp only [Bool.and_eq_true, Bool.not_eq_true'] at hp
    exact hp.1
  | none =>
    cases hf2 : advEmails.find? (fun e => !is_generic_email e) with
    | none => decide
    | some e =>
      have hp := List.find?_some hf2
      simpa using hp

/-- Claim C2: neither extract_email nor the /scrape route's per-item email
selection ever returns an email containing a generic-exclusion pattern
(case-folded substring containment, anywhere in the string); the empty
string, standing for no email, is itself generic-free. -/
theorem attributed_email_never_generic (o : ExtractOracle)
    (contactMatches advEmails : List String) (advSuccess advEnabled : Bool)
    (title snippet link name company text url purl : String) :
    is_generic_email (extract_email o text url name company purl) = false ∧
    is_generic_email (select_item_email o contactMatches advEmails advSuccess advEnabled
      title snippet link name company) = false := by
  refine ⟨extract_email_not_generic o text url name company purl, ?_⟩
  unfold select_item_email
  have hc : is_generic_email
      (selectContact (extract_email o (title ++ " " ++ snippet) link name company link)
        contactMatches) = false := by
    unfold selectContact
    split
    · exact contactFallback_not_generic contactMatches
    · exact extract_email_not_generic o (title ++ " " ++ snippet) link name company link
  unfold selectAdv
  split
  · exact advancedFallback_not_generic o advEmails name snippet
  · exact hc

theorem finishExtract_mem (acc : List (String × Nat)) (h : acc ≠ []) :
    ∃ x ∈ acc, finishExtract acc = x.1 := by
  cases acc with
  | nil => exact absurd rfl h
  | cons x xs => exact ⟨selectBest x xs, selectBest_mem xs x, rfl⟩

/-- Claim C4: when any non-generic candidate was found empirically (from the
profile text, the URL, or the scraped profile page), extract_email returns one
of those observed candidates; inference is never consulted, so an inferred
email never out-ranks an observed one. -/
theorem inferred_last_resort (o : ExtractOracle) (text url name company purl : String)
    (h : (∃ e ∈ o.findEmails text, is_generic_email e = false) ∨
         (url ≠ "" ∧ ∃ e ∈ o.findEmails url, is_generic_email e = false) ∨
         (purl ≠ "" ∧
           PROFILE_DOMAINS.any (fun d => containsSub d (strLower purl)) = true ∧
           o.scrapeEmail purl ≠ "" ∧ is_generic_email (o.scrapeEmail purl) = false)) :
    extract_email o text url name company purl ∈ o.findEmails text ∨
    extract_email o text url name company purl ∈ o.findEmails url ∨
    extract_email o text url name company purl = o.scrapeEmail purl := by
  cases h1 : scanEmails is_generic_email (profileSpecificIn o name text) 3
      (o.findEmails text) [] with
  | inl e =>
    rw [extract_email_eq1 o text url name company purl e h1]
    exact Or.inl (List.mem_of_find?_eq_some ((scanEmails_inl_iff _ _ _ _ _ _).1 h1))
  | inr acc1 =>
    cases h2 : scanUrl o url name text acc1 with
    | inl e =>
      rw [extract_email_eq2 o text url name company purl e acc1 h1 h2]
      exact Or.inr (Or.inl (List.mem_of_find?_eq_some (scanUrl_inl _ _ _ _ _ _ h2).2))
    | inr acc2 =>
      cases h3 : scanScraped o purl name text acc2 with
      | inl e =>
        rw [extract_email_eq3 o text url name company purl e acc1 acc2 h1 h2 h3]
        exact Or.inr (Or.inr (scanScraped_inl _ _ _ _ _ _ h3).1)
      | inr acc3 =>
        rw [extract_email_eq4 o text url name company purl acc1 acc2 acc3 h1 h2 h3]
        obtain ⟨l2, hl2, _⟩ := scanUrl_inr _ _ _ _ _ _ h2
        obtain ⟨l3, hl3, _⟩ := scanScraped_inr _ _ _ _ _ _ h3
        have hacc3ne : acc3 ≠ [] := by
          rcases h with htext | hurl | hscr
          · rcases scanEmails_progress is_generic_email (profileSpecificIn o name text) 3
                (o.findEmails text) [] htext with ⟨e, he⟩ | ⟨acc', hacc', hlen⟩
            · rw [he] at h1; cases h1
            · rw [h1] at hacc'
              obtain rfl := Sum.inr.inj hacc'
              intro hnil
              rw [hl3, hl2] at hnil
              simp [List.append_eq_nil] at hnil
              rw [hnil.1] at hlen
              simp at hlen
          · rw [scanUrl_pos o url name text acc1 hurl.1] at h2
            rcases scanEmails_progress is_generic_email (profileSpecificIn o name text) 2
                (o.findEmails url) acc1 hurl.2 with ⟨e, he⟩ | ⟨acc', hacc', hlen⟩
            · rw [he] at h2; cases h2
            · rw [h2] at hacc'
              obtain rfl := Sum.inr.inj hacc'
              intro hnil
              rw [hl3] at hnil
              simp [List.append_eq_nil] at hnil
              rw [hnil.1] at hlen
              simp at hlen
          · rcases scanScraped_progress o purl name text acc2 ⟨hscr.1, hscr.2.1⟩
                hscr.2.2.1 hscr.2.2.2 with hs | hs
            · rw [hs] at h3; cases h3
            · rw [hs] at h3
              obtain rfl := Sum.inr.inj h3
              simp
        rw [addInferred_of_ne_nil o name company text acc3 hacc3ne]
        obtain ⟨x, hx, hfin⟩ := finishExtract_mem acc3 hacc3ne
        rw [hfin]
        rcases (acc3_sources o text url name purl acc1 acc2 acc3 h1 h2 h3 x hx).1
          with m | m | m
        · exact Or.inl m
        · exact Or.inr (Or.inl m)
        · exact Or.inr (Or.inr m)

/-- Claim C1 (amended): when any surviving (non-generic) candidate is
profile-specific, extract_email returns the FIRST such candidate in strategy
order — text matches, then URL matches, then the scraped-page email — not the
highest-tier one. -/
theorem extract_email_first_specific (o : ExtractOracle)
    (text url name company purl e : String)
    (h : (candidateEmails o text url purl).find?
        (fun x => !is_generic_email x && profileSpecificIn o name text x) = some e) :
    extract_email o text url name company purl = e := by
  unfold candidateEmails at h
  rw [List.find?_append, List.find?_append] at h
  cases hts : (o.findEmails text).find?
      (fun x => !is_generic_email x && profileSpecificIn o name text x) with
  | some a =>
    rw [hts, Option.or_some] at h
    cases h
    exact extract_email_eq1 o text url name company purl e
      ((scanEmails_inl_iff _ _ _ _ _ _).2 hts)
  | none =>
    rw [hts, Option.none_or] at h
    cases h1 : scanEmails is_generic_email (profileSpecificIn o name text) 3
        (o.findEmails text) [] with
    | inl e' =>
      rw [(scanEmails_inl_iff _ _ _ _ _ _).1 h1] at hts
      cases hts
    | inr acc1 =>
      by_cases hu : url = ""
      · rw [if_neg (by simp [hu])] at h
        rw [List.find?_nil, Option.none_or] at h
        have h2 : scanUrl o url name text acc1 = Sum.inr acc1 := by
          simp [scanUrl, hu]
        -- the scraped-candidate list must have produced e
        split at h
        · rename_i hdom
          split at h
          · rename_i hne
            rw [List.find?_cons] at h
            split at h
            · rename_i hp
              cases h
              have h3 : scanScraped o purl name text acc1 = Sum.inl (o.scrapeEmail purl) := by
                unfold scanScraped
                simp only [Bool.and_eq_true, Bool.not_eq_true'] at hp
                rw [if_pos hdom, if_pos ⟨hne, hp.1⟩, if_pos hp.2]
              exact extract_email_eq3 o text url name company purl _ acc1 acc1 h1 h2 h3
            · rw [List.find?_nil] at h; cases h
          · rw [List.find?_nil] at h; cases h
        · rw [List.find?_nil] at h; cases h
      · rw [if_pos hu] at h
        cases hus : (o.findEmails url).find?
            (fun x => !is_generic_email x && profileSpecificIn o name text x) with
        | some a =>
          rw [hus, Option.or_some] at h
          cases h
          have h2 : scanUrl o url name text acc1 = Sum.inl e := by
            rw [scanUrl_pos o url name text acc1 hu]
            exact (scanEmails_inl_iff _ _ _ _ _ _).2 hus
          exact extract_email_eq2 o text url name company purl e acc1 h1 h2
        | none =>
          rw [hus, Option.none_or] at h
          cases h2 : scanUrl o url name text acc1 with
          | inl e' =>
            have := (scanUrl_inl _ _ _ _ _ _ h2).2
            rw [this] at hus
            cases hus
          | inr acc2 =>
            split at h
            · rename_i hdom
              split at h
              · rename_i hne
                rw [List.find?_cons] at h
                split at h
                · rename_i hp
                  cases h
                  have h3 : scanScraped o purl name text acc2 = Sum.inl (o.scrapeEmail purl) := by
                    unfold scanScraped
                    simp only [Bool.and_eq_true, Bool.not_eq_true'] at hp
                    rw [if_pos hdom, if_pos ⟨hne, hp.1⟩, if_pos hp.2]
                  exact extract_email_eq3 o text url name company purl _ acc1 acc2 h1 h2 h3
                · rw [List.find?_nil] at h; cases h
              · rw [List.find?_nil] at h; cases h
            · rw [List.find?_nil] at h; cases h

/-- Claim C1, as stated, is false: a profile-specific text candidate (tier 3)
is returned immediately, before the scraped-profile-page candidate (tier 4)
is even considered, so the higher-tier profile-specific candidate a is NOT
always selected over the lower-tier b. -/
theorem extract_email_tier_order_cex :
    ¬ (∀ (o : ExtractOracle) (text url name company purl a b : String),
        purl ≠ "" →
        PROFILE_DOMAINS.any (fun d => containsSub d (strLower purl)) = true →
        o.scrapeEmail purl = a → a ≠ "" →
        is_generic_email a = false → profileSpecificIn o name text a = true →
        b ∈ o.findEmails text → is_generic_email b = false →
        profileSpecificIn o name text b = true →
        extract_email o text url name company purl = a) := by
  intro hclaim
  have h := hclaim oracleTextScrape "T" "" "John Doe" "" "https://github.com/johndoe"
      "doe@y.com" "john@x.com"
      (by decide) (by decide) (by decide) (by decide) (by decide) (by decide)
      (by decide) (by decide) (by decide)
  have heval : extract_email oracleTextScrape "T" "" "John Doe" ""
      "https://github.com/johndoe" = "john@x.com" := by decide
  rw [heval] at h
  exact absurd h (by decide)

/-- Witness for the amended claim C1: the first profile-specific surviving
candidate in strategy order is the text candidate, and it is returned even
though a tier-4 scraped candidate exists. -/
theorem extract_email_first_specific_witness :
    (candidateEmails oracleTextScrape "T" "" "https://github.com/johndoe").find?
        (fun x => !is_generic_email x &&
          profileSpecificIn oracleTextScrape "John Doe" "T" x) = some "john@x.com" ∧
    extract_email oracleTextScrape "T" "" "John Doe" "" "https://github.com/johndoe" =
      "john@x.com" :=
  ⟨by decide,
    extract_email_first_specific oracleTextScrape "T" "" "John Doe" ""
      "https://github.com/johndoe" "john@x.com" (by decide)⟩

/-- Witness for claim C4: a non-generic text candidate exists, and
extract_email indeed returns an observed candidate. -/
theorem inferred_last_resort_witness :
    (∃ e ∈ oracleTextScrape.findEmails "T", is_generic_email e = false) ∧
    (extract_email oracleTextScrape "T" "" "" "" "" ∈ oracleTextScrape.findEmails "T" ∨
     extract_email oracleTextScrape "T" "" "" "" "" ∈ oracleTextScrape.findEmails "" ∨
     extract_email oracleTextScrape "T" "" "" "" "" = oracleTextScrape.scrapeEmail "") :=
  ⟨⟨"john@x.com", by decide, by decide⟩,
    inferred_last_resort oracleTextScrape "T" "" "" "" ""
      (Or.inl ⟨"john@x.com", by decide, by decide⟩)⟩

/-- Claim C8, as stated, is false: an email inferred from name and company is
attributed without being checked against the shared email grammar; with
company "Acme Corp" the inferred address john.doe@acme has no dot-separated
final label and is syntactically invalid, yet it is returned. -/
theorem candidate_email_valid_cex :
    ¬ (∀ (o : ExtractOracle) (text url name company purl : String),
        extract_email o text url name company purl ≠ "" →
        emailValid (extract_email o text url name company purl) = true) := by
  intro hclaim
  have heval : extract_email oracleEmpty "t" "" "John Doe" "Acme Corp" "" =
      "john.doe@acme" := by decide
  have h := hclaim oracleEmpty "t" "" "John Doe" "Acme Corp" "" (by rw [heval]; decide)
  rw [heval] at h
  exact absurd h (by decide)

/-- Claim C8 (amended): every attributed email is either a found candidate —
syntactically valid whenever the supplying regex sources only produce valid
matches — or an email inferred from name and company, which is built by
string concatenation and not validated against the grammar. -/
theorem candidate_email_valid_amended (o : ExtractOracle)
    (text url name company purl : String)
    (hts : ∀ e ∈ o.findEmails text, emailValid e = true)
    (hus : ∀ e ∈ o.findEmails url, emailValid e = true)
    (hsc : o.scrapeEmail purl = "" ∨ emailValid (o.scrapeEmail purl) = true) :
    extract_email o text url name company purl = "" ∨
    emailValid (extract_email o text url name company purl) = true ∨
    extract_email o text url name company purl = infer_email_from_name_company name company ∨
    extract_email o text url name company purl =
      infer_email_from_name_company name (o.extractCompany text) := by
  cases h1 : scanEmails is_generic_email (profileSpecificIn o name text) 3
      (o.findEmails text) [] with
  | inl e =>
    rw [extract_email_eq1 o text url name company purl e h1]
    exact Or.inr (Or.inl (hts e
      (List.mem_of_find?_eq_some ((scanEmails_inl_iff _ _ _ _ _ _).1 h1))))
  | inr acc1 =>
    cases h2 : scanUrl o url name text acc1 with
    | inl e =>
      rw [extract_email_eq2 o text url name company purl e acc1 h1 h2]
      exact Or.inr (Or.inl (hus e
        (List.mem_of_find?_eq_some (scanUrl_inl _ _ _ _ _ _ h2).2)))
    | inr acc2 =>
      cases h3 : scanScraped o purl name text acc2 with
      | inl e =>
        rw [extract_email_eq3 o text url name company purl e acc1 acc2 h1 h2 h3]
        obtain ⟨heq, hne, -, -⟩ := scanScraped_inl _ _ _ _ _ _ h3
        rcases hsc with hsc | hsc
        · rw [heq] at hne; exact absurd hsc hne
        · refine Or.inr (Or.inl ?_); rw [heq]; exact hsc
      | inr acc3 =>
        rw [extract_email_eq4 o text url name company purl acc1 acc2 acc3 h1 h2 h3]
        rcases finishExtract_cases (addInferred o name company text acc3) with hfin | ⟨x, hx, hfin⟩
        · exact Or.inl hfin
        · rw [hfin]
          rcases addInferred_mem o name company text acc3 x hx with hmem | hmem
          · rcases (acc3_sources o text url name purl acc1 acc2 acc3 h1 h2 h3 x hmem).1
              with m | m | m
            · exact Or.inr (Or.inl (hts x.1 m))
            · exact Or.inr (Or.inl (hus x.1 m))
            · rcases hsc with hsc | hsc
              · exact Or.inl (m.trans hsc)
              · refine Or.inr (Or.inl ?_); rw [m]; exact hsc
          · rcases hmem.2 with hi | hi
            · exact Or.inr (Or.inr (Or.inl hi))
            · exact Or.inr (Or.inr (Or.inr hi))

/-- Witness for the amended claim C8: with no found candidates, the attributed
email is exactly the (unvalidated) inferred address. -/
theorem candidate_email_valid_amended_witness :
    (∀ e ∈ oracleEmpty.findEmails "t", emailValid e = true) ∧
    (oracleEmpty.scrapeEmail "" = "" ∨ emailValid (oracleEmpty.scrapeEmail "") = true) ∧
    (extract_email oracleEmpty "t" "" "John Doe" "Acme Corp" "" = "" ∨
     emailValid (extract_email oracleEmpty "t" "" "John Doe" "Acme Corp" "") = true ∨
     extract_email oracleEmpty "t" "" "John Doe" "Acme Corp" "" =
       infer_email_from_name_company "John Doe" "Acme Corp" ∨
     extract_email oracleEmpty "t" "" "John Doe" "Acme Corp" "" =
       infer_email_from_name_company "John Doe" (oracleEmpty.extractCompany "t")) :=
  ⟨by decide, by decide,
    candidate_email_valid_amended oracleEmpty "t" "" "John Doe" "Acme Corp" ""
      (by decide) (by decide) (by decide)⟩

/-! ## Deduplication -/

theorem seLookup_seUpdate_self : ∀ (se : List (String × String)) (k v : String),
    seLookup (seUpdate se k v) k = some v := by
  intro se
  induction se with
  | nil => intro k v; simp [seUpdate, seLookup]
  | cons p rest ih =>
    intro k v
    obtain ⟨k', v'⟩ := p
    by_cases h : k' = k
    · simp [seUpdate, seLookup, h]
    · simp [seUpdate, seLookup, h, ih]

theorem seLookup_seUpdate_ne : ∀ (se : List (String × String)) (k v k' : String),
    k' ≠ k → seLookup (seUpdate se k v) k' = seLookup se k' := by
  intro se
  induction se with
  | nil =>
    intro k v k' h
    simp [seUpdate, seLookup, Ne.symm h]
  | cons p rest ih =>
    intro k v k' h
    obtain ⟨k0, v0⟩ := p
    by_cases h0 : k0 = k
    · subst h0
      simp [seUpdate, seLookup, Ne.symm h]
    · simp [seUpdate, seLookup, h0, ih k v k' h]

theorem emailConflict_eq_false (se : List (String × String)) (e url u : String)
    (h : emailConflict se e url = false) (hl : seLookup se e = some u) : u = url := by
  unfold emailConflict at h
  rw [hl] at h
  simpa using h

theorem dedupGo_idem : ∀ (rs : List ScrapeResult) (su : List String)
    (se : List (String × String)),
    dedupGo (dedupGo rs su se) su se = dedupGo rs su se := by
  intro rs
  induction rs with
  | nil => intro su se; simp [dedupGo]
  | cons r rs ih =>
    intro su se
    by_cases hc1 : r.profile_url ≠ "" ∧ r.profile_url ∈ su
    · simp only [dedupGo, if_pos hc1]
      exact ih su se
    · by_cases hc2 : normEmail r.email ≠ "" ∧
        emailConflict se (normEmail r.email) r.profile_url = true
      · simp only [dedupGo, if_neg hc1, if_pos hc2]
        exact ih su se
      · simp only [dedupGo, if_neg hc1, if_neg hc2]
        rw [ih]

/-- Claim C9: deduplicate_results is idempotent — its output is a fixed
point. -/
theorem deduplicate_results_idempotent (results : List ScrapeResult) :
    deduplicate_results (deduplicate_results results) = deduplicate_results results :=
  dedupGo_idem results [] []

/-- Invariant of the deduplication loop: every kept row's non-empty URL was
not yet seen, every kept row's claimed email agrees with the incoming
seen_emails mapping, and two kept rows can share a non-empty email only if
both their URLs are empty. -/
theorem dedupGo_pairwise_aux : ∀ (rs : List ScrapeResult) (su : List String)
    (se : List (String × String)),
    (∀ x ∈ dedupGo rs su se,
        (x.profile_url ≠ "" → x.profile_url ∉ su) ∧
        (∀ u, seLookup se (normEmail x.email) = some u → normEmail x.email ≠ "" →
          u = x.profile_url)) ∧
    (dedupGo rs su se).Pairwise (fun a b =>
      normEmail a.email ≠ "" → normEmail a.email = normEmail b.email →
        a.profile_url = "" ∧ b.profile_url = "") := by
  intro rs
  induction rs with
  | nil => intro su se; simp [dedupGo]
  | cons r rs ih =>
    intro su se
    by_cases hc1 : r.profile_url ≠ "" ∧ r.profile_url ∈ su
    · simp only [dedupGo, if_pos hc1]
      exact ih su se
    · by_cases hc2 : normEmail r.email ≠ "" ∧
        emailConflict se (normEmail r.email) r.profile_url = true
      · simp only [dedupGo, if_neg hc1, if_pos hc2]
        exact ih su se
      · simp only [dedupGo, if_neg hc1, if_neg hc2]
        obtain ⟨ihK, ihP⟩ := ih (if r.profile_url ≠ "" then r.profile_url :: su else su)
          (if normEmail r.email ≠ "" then seUpdate se (normEmail r.email) r.profile_url else se)
        have hKr : (r.profile_url ≠ "" → r.profile_url ∉ su) ∧
            (∀ u, seLookup se (normEmail r.email) = some u → normEmail r.email ≠ "" →
              u = r.profile_url) := by
          constructor
          · intro hne hmem
            exact hc1 ⟨hne, hmem⟩
          · intro u hl hne
            have hconf : emailConflict se (normEmail r.email) r.profile_url = false := by
              by_contra hcf
              rw [Bool.not_eq_false] at hcf
              exact hc2 ⟨hne, hcf⟩
            exact emailConflict_eq_false se (normEmail r.email) r.profile_url u hconf hl
        have hsu_sub : su ⊆ (if r.profile_url ≠ "" then r.profile_url :: su else su) := by
          split
          · exact List.subset_cons_self _ _
          · exact List.Subset.refl _
        have hlook : ∀ (ex : String) (u : String), ex ≠ "" → seLookup se ex = some u →
            seLookup (if normEmail r.email ≠ "" then
              seUpdate se (normEmail r.email) r.profile_url else se) ex = some u := by
          intro ex u hex hl
          split
          · rename_i hre
            by_cases hxe : ex = normEmail r.email
            · subst hxe
              have := hKr.2 u hl hex
              rw [seLookup_seUpdate_self, this]
            · rw [seLookup_seUpdate_ne se (normEmail r.email) r.profile_url ex hxe]
              exact hl
          · exact hl
        constructor
        · intro x hx
          rcases List.mem_cons.1 hx with rfl | hx'
          · exact hKr
          · obtain ⟨hK1, hK2⟩ := ihK x hx'
            constructor
            · intro hne hmem
              exact hK1 hne (hsu_sub hmem)
            · intro u hl hne
              exact hK2 u (hlook (normEmail x.email) u hne hl) hne
        · rw [List.pairwise_cons]
          refine ⟨?_, ihP⟩
          intro x hx her heq
          obtain ⟨hK1, hK2⟩ := ihK x hx
          have hlook' : seLookup (if normEmail r.email ≠ "" then
              seUpdate se (normEmail r.email) r.profile_url else se) (normEmail x.email) =
              some r.profile_url := by
            rw [if_pos her, ← heq, seLookup_seUpdate_self]
          have hxu : r.profile_url = x.profile_url := by
            refine hK2 r.profile_url hlook' ?_
            rw [← heq]; exact her
          have hrempty : r.profile_url = "" := by
            by_contra hrne
            have hmem : r.profile_url ∈
                (if r.profile_url ≠ "" then r.profile_url :: su else su) := by
              rw [if_pos hrne]
              exact List.mem_cons_self _ _
            have := hK1 (by rw [← hxu]; exact hrne)
            rw [← hxu] at this
            exact this hmem
          exact ⟨hrempty, by rw [← hxu]; exact hrempty⟩

/-- Claim C3 (amended): two rows surviving deduplicate_results never share a
non-empty normalized email unless both their profile URLs are empty (the
empty-URL case escapes both the URL check and the different-URL email
check). -/
theorem deduplicate_results_email_pairwise (results : List ScrapeResult) :
    (deduplicate_results results).Pairwise (fun a b =>
      normEmail a.email = "" ∨ normEmail a.email ≠ normEmail b.email ∨
      (a.profile_url = "" ∧ b.profile_url = "")) := by
  have h := (dedupGo_pairwise_aux results [] []).2
  refine h.imp ?_
  intro a b hab
  by_cases he : normEmail a.email = ""
  · exact Or.inl he
  · by_cases heq : normEmail a.email = normEmail b.email
    · exact Or.inr (Or.inr (hab he heq))
    · exact Or.inr (Or.inl heq)

/-- Claim C3, as stated, is false: two rows with the same non-empty email and
both with an empty profile URL both survive deduplication (the first is not
registered in seen_urls, and the email check sees the same — empty — URL). -/
theorem deduplicate_results_unique_email_cex :
    ¬ (∀ (results : List ScrapeResult),
        (deduplicate_results results).Pairwise (fun a b =>
          normEmail a.email ≠ "" → normEmail a.email ≠ normEmail b.email)) := by
  intro hclaim
  have h := hclaim [⟨"", "a@b.c"⟩, ⟨"", "a@b.c"⟩]
  have heval : deduplicate_results [(⟨"", "a@b.c"⟩ : ScrapeResult), ⟨"", "a@b.c"⟩] =
      [⟨"", "a@b.c"⟩, ⟨"", "a@b.c"⟩] := by decide
  rw [heval, List.pairwise_cons] at h
  have hrel := h.1 ⟨"", "a@b.c"⟩ (List.mem_singleton.2 rfl)
  exact hrel (by decide) rfl

/-! ## Relevance scoring -/

theorem qDivNat_eq (m n : Nat) : qDivNat m n = (m : ℚ) / (n : ℚ) := by
  unfold qDivNat
  rw [Rat.mkRat_eq_div]
  norm_num

theorem qAdd_eq (a b : ℚ) : qAdd a b = a + b := by
  unfold qAdd
  rw [Rat.mkRat_eq_div]
  have ha : (a.den : ℚ) ≠ 0 := Nat.cast_ne_zero.2 a.den_nz
  have hb : (b.den : ℚ) ≠ 0 := Nat.cast_ne_zero.2 b.den_nz
  conv_rhs => rw [← Rat.num_div_den a, ← Rat.num_div_den b]
  rw [div_add_div _ _ ha hb]
  push_cast
  ring_nf

theorem qMul_eq (a b : ℚ) : qMul a b = a * b := by
  unfold qMul
  rw [Rat.mkRat_eq_div]
  conv_rhs => rw [← Rat.num_div_den a, ← Rat.num_div_den b]
  rw [div_mul_div_comm]
  push_cast
  ring_nf

theorem mkRat_ten_eq (a : Int) : (mkRat a 10 : ℚ) = (a : ℚ) / 10 := by
  rw [Rat.mkRat_eq_div]
  norm_num

theorem tier_term_nonneg (a b c : Nat) :
    0 ≤ qMul (min (qDivNat a b) 1) (mkRat c 10) := by
  rw [qMul_eq, qDivNat_eq, mkRat_ten_eq]
  apply mul_nonneg
  · exact le_min (by positivity) zero_le_one
  · positivity

theorem relevanceSum_nonneg (km pc tc : Nat) (jm cm : Bool) :
    0 ≤ relevanceSum km pc tc jm cm := by
  unfold relevanceSum
  have hb1 : (0:ℚ) ≤ if 0 < km then qMul (min (qDivNat km tc) 1) (mkRat 4 10) else 0 := by
    split
    · exact tier_term_nonneg km tc 4
    · exact le_refl 0
  have hb2 : (0:ℚ) ≤ if 0 < pc then qMul (min (qDivNat pc 5) 1) (mkRat 3 10) else 0 := by
    split
    · exact tier_term_nonneg pc 5 3
    · exact le_refl 0
  have hb3 : (0:ℚ) ≤ if jm then mkRat 2 10 else 0 := by
    split
    · rw [mkRat_ten_eq]; norm_num
    · exact le_refl 0
  have hb4 : (0:ℚ) ≤ if cm then mkRat 1 10 else 0 := by
    split
    · rw [mkRat_ten_eq]; norm_num
    · exact le_refl 0
  rw [qAdd_eq, qAdd_eq, qAdd_eq]
  have := add_nonneg (add_nonneg (add_nonneg hb1 hb2) hb3) hb4
  linarith

theorem relevanceBase_nonneg (km pc tc : Nat) (jm cm : Bool) :
    0 ≤ relevanceBase km pc tc jm cm := by
  unfold relevanceBase
  split
  · rw [qMul_eq, mkRat_ten_eq]
    apply mul_nonneg (relevanceSum_nonneg km pc tc jm cm)
    norm_num
  · exact relevanceSum_nonneg km pc tc jm cm

/-- Claim C7: the relevance score always lies in [0,1], and a valid profile
has score between 3/10 and 1. -/
theorem relevance_score_in_unit_interval (v : KeywordRelevanceValidator)
    (name profile_text title job_title company url : String) :
    0 ≤ (calculate_relevance_score v profile_text title job_title company).1 ∧
    (calculate_relevance_score v profile_text title job_title company).1 ≤ 1 ∧
    ((validate_profile v name profile_text title job_title company url).is_valid = true →
      (3/10 : ℚ) ≤ (validate_profile v name profile_text title job_title company url).score ∧
      (validate_profile v name profile_text title job_title company url).score ≤ 1) := by
  have hbounds : 0 ≤ (calculate_relevance_score v profile_text title job_title company).1 ∧
      (calculate_relevance_score v profile_text title job_title company).1 ≤ 1 := by
    unfold calculate_relevance_score
    split
    · norm_num
    · split
      · norm_num
      · split
        · norm_num
        · split
          · norm_num
          · constructor
            · exact le_min (relevanceBase_nonneg _ _ _ _ _) zero_le_one
            · exact min_le_right _ _
  refine ⟨hbounds.1, hbounds.2, ?_⟩
  intro hvalid
  have hscore : (validate_profile v name profile_text title job_title company url).score =
      (calculate_relevance_score v profile_text title job_title company).1 := rfl
  have hv : decide (mkRat 3 10 ≤
      (calculate_relevance_score v profile_text title job_title company).1) = true := by
    have : (validate_profile v name profile_text title job_title company url).is_valid =
        (decide (mkRat 3 10 ≤ (calculate_relevance_score v profile_text title job_title company).1) &&
         (validate_profile v name profile_text title job_title company url).has_name &&
         (validate_profile v name profile_text title job_title company url).has_keyword_match &&
         (validate_profile v name profile_text title job_title company url).not_product) := rfl
    rw [this] at hvalid
    simp only [Bool.and_eq_true] at hvalid
    exact hvalid.1.1.1
  constructor
  · have h310 : (mkRat 3 10 : ℚ) = 3/10 := by rw [mkRat_ten_eq]; norm_num
    rw [hscore, ← h310]
    exact of_decide_eq_true hv
  · rw [hscore]
    exact hbounds.2

/-- Witness for claim C7 at a concrete valid profile. -/
theorem relevance_score_in_unit_interval_witness :
    (validate_profile (mkValidator ["rfid", "engineer"]) "John Doe"
        "senior rfid engineer at acme, 8 years of experience").is_valid = true ∧
    ((3/10 : ℚ) ≤ (validate_profile (mkValidator ["rfid", "engineer"]) "John Doe"
        "senior rfid engineer at acme, 8 years of experience").score ∧
     (validate_profile (mkValidator ["rfid", "engineer"]) "John Doe"
        "senior rfid engineer at acme, 8 years of experience").score ≤ 1) :=
  ⟨by decide,
    (relevance_score_in_unit_interval (mkValidator ["rfid", "engineer"]) "John Doe"
      "senior rfid engineer at acme, 8 years of experience" "" "" "" "").2.2 (by decide)⟩

/-- Claim C5: the relevance score is forced to 0 whenever at least 2
irrelevant/commercial terms occur, or any single is-a-product indicator
occurs, or at least 2 company-page phrases occur in the combined text. -/
theorem relevance_hard_reject_zero (v : KeywordRelevanceValidator)
    (profile_text title job_title company : String)
    (h : 2 ≤ irrelevantCount (combinedText title job_title company profile_text) ∨
         isProductListing (combinedText title job_title company profile_text) = true ∨
         2 ≤ companyPageCount (combinedText title job_title company profile_text)) :
    (calculate_relevance_score v profile_text title job_title company).1 = 0 := by
  unfold calculate_relevance_score
  split
  · rfl
  · split
    · rfl
    · split
      · rfl
      · split
        · rfl
        · rename_i hpt hirr hprod hcp
          exfalso
          rcases h with h | h | h
          · exact hirr h
          · exact hprod h
          · exact hcp h

/-- Witness for claim C5: text with two irrelevant/commercial terms scores 0. -/
theorem relevance_hard_reject_zero_witness :
    2 ≤ irrelevantCount (combinedText "" "" "" "buy from our shop now") ∧
    (calculate_relevance_score (mkValidator ["rfid"]) "buy from our shop now").1 = 0 :=
  ⟨by decide,
    relevance_hard_reject_zero (mkValidator ["rfid"]) "buy from our shop now" "" "" ""
      (Or.inl (by decide))⟩

/-- Claim C6: is_valid holds exactly when the score is at least 3/10 and the
has_name, has_keyword_match and not_product checks pass, and confidence is
the number of passed checks (out of the five) divided by 5. -/
theorem validate_profile_is_valid_iff (v : KeywordRelevanceValidator)
    (name profile_text title job_title company url : String) :
    ((validate_profile v name profile_text title job_title company url).is_valid = true ↔
      ((3/10 : ℚ) ≤ (validate_profile v name profile_text title job_title company url).score ∧
       (validate_profile v name profile_text title job_title company url).has_name = true ∧
       (validate_profile v name profile_text title job_title company url).has_keyword_match = true ∧
       (validate_profile v name profile_text title job_title company url).not_product = true)) ∧
    (validate_profile v name profile_text title job_title company url).confidence =
      (((if (validate_profile v name profile_text title job_title company url).has_name
           then 1 else 0) +
        (if (validate_profile v name profile_text title job_title company url).has_keyword_match
           then 1 else 0) +
        (if (validate_profile v name profile_text title job_title company url).is_professional
           then 1 else 0) +
        (if (validate_profile v name profile_text title job_title company url).not_product
           then 1 else 0) +
        (if (validate_profile v name profile_text title job_title company url).not_company_page
           then 1 else 0) : Nat) : ℚ) / 5 := by
  constructor
  · have h : (validate_profile v name profile_text title job_title company url).is_valid =
        (decide (mkRat 3 10 ≤
            (validate_profile v name profile_text title job_title company url).score) &&
         (validate_profile v name profile_text title job_title company url).has_name &&
         (validate_profile v name profile_text title job_title company url).has_keyword_match &&
         (validate_profile v name profile_text title job_title company url).not_product) := rfl
    rw [h]
    simp only [Bool.and_eq_true, decide_eq_true_eq]
    have h310 : (mkRat 3 10 : ℚ) = 3/10 := by
      rw [mkRat_ten_eq]; norm_num
    rw [h310]
    tauto
  · have h : (validate_profile v name profile_text title job_title company url).confidence =
        qDivNat
          ((if (validate_profile v name profile_text title job_title company url).has_name
              then 1 else 0) +
           (if (validate_profile v name profile_text title job_title company url).has_keyword_match
              then 1 else 0) +
           (if (validate_profile v name profile_text title job_title company url).is_professional
              then 1 else 0) +
           (if (validate_profile v name profile_text title job_title company url).not_product
              then 1 else 0) +
           (if (validate_profile v name profile_text title job_title company url).not_company_page
              then 1 else 0)) 5 := rfl
    rw [h, qDivNat_eq]
    norm_num

/-- Claim C10: the has_keyword_match, not_product and not_company_page checks
of validate_profile read only profile_text (not title, job title, or
company), so keyword terms occurring only in the job title leave
has_keyword_match false and force is_valid false. -/
theorem validate_checks_profile_text_only (v : KeywordRelevanceValidator)
    (name name2 profile_text title job_title company url title2 job_title2 company2 url2 :
      String) :
    ((validate_profile v name profile_text title job_title company url).has_keyword_match =
       (validate_profile v name2 profile_text title2 job_title2 company2 url2).has_keyword_match ∧
     (validate_profile v name profile_text title job_title company url).not_product =
       (validate_profile v name2 profile_text title2 job_title2 company2 url2).not_product ∧
     (validate_profile v name profile_text title job_title company url).not_company_page =
       (validate_profile v name2 profile_text title2 job_title2 company2 url2).not_company_page) ∧
    ((∀ term ∈ v.keyword_terms, containsSub term (strLower profile_text) = false) →
      (validate_profile v name profile_text title job_title company url).has_keyword_match =
        false ∧
      (validate_profile v name profile_text title job_title company url).is_valid = false) := by
  refine ⟨⟨rfl, rfl, rfl⟩, ?_⟩
  intro h
  have hkm : (validate_profile v name profile_text title job_title company url).has_keyword_match
      = false := by
    have heq : (validate_profile v name profile_text title job_title company url).has_keyword_match
        = v.keyword_terms.any (fun term => containsSub term (strLower profile_text)) := rfl
    rw [heq]
    simp only [List.any_eq_false]
    intro x hx
    simp [h x hx]
  refine ⟨hkm, ?_⟩
  have hiv : (validate_profile v name profile_text title job_title company url).is_valid =
      (decide (mkRat 3 10 ≤
          (validate_profile v name profile_text title job_title company url).score) &&
       (validate_profile v name profile_text title job_title company url).has_name &&
       (validate_profile v name profile_text title job_title company url).has_keyword_match &&
       (validate_profile v name profile_text title job_title company url).not_product) := rfl
  rw [hiv, hkm]
  simp

/-- Witness for claim C10: keyword "rfid" appears only in the job title;
has_keyword_match and is_valid are false. -/
theorem validate_checks_profile_text_only_witness :
    (∀ term ∈ (mkValidator ["rfid"]).keyword_terms,
        containsSub term (strLower "hello world") = false) ∧
    ((validate_profile (mkValidator ["rfid"]) "John Doe" "hello world" ""
        "rfid engineer").has_keyword_match = false ∧
     (validate_profile (mkValidator ["rfid"]) "John Doe" "hello world" ""
        "rfid engineer").is_valid = false) :=
  ⟨by decide,
    (validate_checks_profile_text_only (mkValidator ["rfid"]) "John Doe" "x" "hello world"
      "" "rfid engineer" "" "" "" "" "" "").2 (by decide)⟩
